import Mathlib

/-!
# Shallow embedding of the OmniBank ledger engine (`src/main.py`)

Monetary amounts, Python floats in the source, are embedded as exact
rationals.  Timestamps are represented by list position: the source's
`Bank.append_transaction` appends entries in chronological order and
`statement_str` breaks timestamp ties by insertion order, so the ledger
list order is exactly the replay order the spec talks about.

The in-memory `Bank.accounts` / `Bank.loans` Python dicts are embedded
as insertion-ordered association lists; mutation of an `Account` or
`Loan` object held by a dict is embedded as rewriting the binding at the
key under which the object was found.  The CSV files are embedded as the
data they hold: `transactions.csv` is the `ledger` list of a `BankState`
(append-only in the source), and the rewrite-on-save of `accounts.csv`
and `loans.csv` carries no extra state beyond the in-memory tables.
-/

inductive TxType
  | DEPOSIT
  | WITHDRAW
  | TRANSFER_IN
  | TRANSFER_OUT
  | LOAN_DISBURSAL
  | LOAN_PAYMENT
  deriving DecidableEq, Repr

/-- One row of `transactions.csv` / one `Transaction` object
(`src/main.py` lines 59-74); the timestamp is the position in the
ledger list. -/
structure Tx where
  account : String
  type : TxType
  amount : ℚ
  balance : ℚ
  deriving DecidableEq, Repr

/-- The exceptions raised by the source, by Python exception class and
message.  `notFound` stands for the code paths that print an error
message and return without raising (unknown transfer recipient,
invalid loan selection, and the modelling artifact of invoking an
operation for an account number that is not in the store, which the
menu layer prevents by operating on the logged-in account). -/
inductive BankError
  | permissionError (msg : String)
  | valueError (msg : String)
  | notFound (msg : String)
  deriving DecidableEq, Repr

/-- `Account.__init__` plus the in-memory `transactions` list
(`src/main.py` lines 77-96). -/
structure Account where
  number : String
  name : String
  email : String
  phone : String
  password_hash : String
  balance : ℚ
  is_frozen : Bool
  transactions : List Tx
  deriving DecidableEq, Repr

/-- `Account.deposit` (`src/main.py` lines 98-107): frozen check, then
positivity check, then the balance mutation and the appends.  Returns
the updated account together with the entry passed to
`Bank.append_transaction`. -/
def Account.deposit (a : Account) (amount : ℚ) : Except BankError (Account × Tx) :=
  if a.is_frozen then .error (.permissionError "Account is frozen.")
  else if amount ≤ 0 then .error (.valueError "Deposit amount must be positive.")
  else
    let tx : Tx := ⟨a.number, .DEPOSIT, amount, a.balance + amount⟩
    .ok ({ a with balance := a.balance + amount,
                  transactions := a.transactions ++ [tx] }, tx)

/-- `Account.withdraw` (`src/main.py` lines 109-120). -/
def Account.withdraw (a : Account) (amount : ℚ) : Except BankError (Account × Tx) :=
  if a.is_frozen then .error (.permissionError "Account is frozen.")
  else if amount ≤ 0 then .error (.valueError "Withdrawal amount must be positive.")
  else if amount > a.balance then .error (.valueError "Insufficient balance.")
  else
    let tx : Tx := ⟨a.number, .WITHDRAW, amount, a.balance - amount⟩
    .ok ({ a with balance := a.balance - amount,
                  transactions := a.transactions ++ [tx] }, tx)

/-- `Account.transfer_to` (`src/main.py` lines 122-137) for two distinct
account objects: both balances are mutated, then both entries are built
from the already-mutated balances and appended. -/
def Account.transfer_to (a target : Account) (amount : ℚ) :
    Except BankError (Account × Account × Tx × Tx) :=
  if a.is_frozen || target.is_frozen then
    .error (.permissionError "One of the accounts is frozen.")
  else if amount ≤ 0 then .error (.valueError "Transfer amount must be positive.")
  else if amount > a.balance then .error (.valueError "Insufficient balance.")
  else
    let txOut : Tx := ⟨a.number, .TRANSFER_OUT, amount, a.balance - amount⟩
    let txIn : Tx := ⟨target.number, .TRANSFER_IN, amount, target.balance + amount⟩
    .ok ({ a with balance := a.balance - amount,
                  transactions := a.transactions ++ [txOut] },
         { target with balance := target.balance + amount,
                       transactions := target.transactions ++ [txIn] },
         txOut, txIn)

/-- `Loan.__init__` fields (`src/main.py` lines 175-190); `start_date`
carries no behaviour relevant to the claims and is omitted. -/
structure Loan where
  account : String
  principal : ℚ
  interest_rate : ℚ
  term_months : ℤ
  balance : ℚ
  monthly_payment : ℚ
  deriving DecidableEq, Repr

/-- `Loan.calculate_monthly_payment` (`src/main.py` lines 192-197). -/
def Loan.calculate_monthly_payment (principal interest_rate : ℚ) (term_months : ℤ) : ℚ :=
  let r := interest_rate / 12 / 100
  let n := term_months
  if r = 0 then principal / (n : ℚ)
  else (principal * r * (1 + r) ^ n) / ((1 + r) ^ n - 1)

/-- `Loan.__init__` (`src/main.py` lines 175-190): the balance starts at
the principal and the monthly payment is computed once at creation.
No validation is performed. -/
def Loan.create (account : String) (principal interest_rate : ℚ) (term_months : ℤ) : Loan :=
  { account := account, principal := principal, interest_rate := interest_rate,
    term_months := term_months, balance := principal,
    monthly_payment := Loan.calculate_monthly_payment principal interest_rate term_months }

/-- `Loan.make_payment` (`src/main.py` lines 199-206): positivity check,
clamp to the remaining balance, decrement.  Returns the updated loan and
the clamped amount that `Bank.append_loan_payment` receives. -/
def Loan.make_payment (l : Loan) (amount : ℚ) : Except BankError (Loan × ℚ) :=
  if amount ≤ 0 then .error (.valueError "Payment amount must be positive.")
  else
    let applied := if amount > l.balance then l.balance else amount
    .ok ({ l with balance := l.balance - applied }, applied)

/-- `Bank.append_loan_payment` (`src/main.py` lines 350-353): the entry
records the clamped amount and the loan's (already decremented) remaining
balance — not the account balance.  Called with the post-payment loan. -/
def append_loan_payment_tx (l : Loan) (amount : ℚ) : Tx :=
  ⟨l.account, .LOAN_PAYMENT, amount, l.balance⟩

/-- Lookup in the embedded `Bank.accounts` dict. -/
def lookupAcc : List (String × Account) → String → Option Account
  | [], _ => none
  | p :: ps, n => if p.1 = n then some p.2 else lookupAcc ps n

/-- Rewriting the binding at a key: the embedding of mutating the
`Account` object the dict holds at that key. -/
def setAcc (m : List (String × Account)) (n : String) (a : Account) :
    List (String × Account) :=
  m.map (fun p => if p.1 = n then (n, a) else p)

/-- `del self.accounts[acc_num]` (`Bank.close_account`). -/
def removeAcc : List (String × Account) → String → List (String × Account)
  | [], _ => []
  | p :: ps, n => if p.1 = n then removeAcc ps n else p :: removeAcc ps n

/-- The dict's key list (`acc_num in self.accounts` tests membership here). -/
def accountKeys (m : List (String × Account)) : List String := m.map Prod.fst

/-- Lookup in the embedded `Bank.loans` dict. -/
def lookupLoans : List (String × List Loan) → String → Option (List Loan)
  | [], _ => none
  | p :: ps, n => if p.1 = n then some p.2 else lookupLoans ps n

/-- `self.loans.setdefault(key, []).append(loan)` (`Bank.apply_loan`). -/
def appendLoan (m : List (String × List Loan)) (n : String) (l : Loan) :
    List (String × List Loan) :=
  match lookupLoans m n with
  | some _ => m.map (fun p => if p.1 = n then (p.1, p.2 ++ [l]) else p)
  | none => m ++ [(n, [l])]

/-- Rewriting the loan list held at a key (mutation of the list object). -/
def setLoans (m : List (String × List Loan)) (n : String) (ls : List Loan) :
    List (String × List Loan) :=
  m.map (fun p => if p.1 = n then (p.1, ls) else p)

/-- The number-generation loop of `Bank.register_account`
(`src/main.py` lines 367-369): `generate_account_number` resampled while
the result collides with a live key.  `gen i` is the value the `i`-th
call of `generate_account_number` returns and `fuel` bounds how many
loop iterations we observe — the source loop itself is unbounded and has
no exhaustion branch, so `none` means the loop is still running after
`fuel` samples. -/
def pickAccountNumber (gen : ℕ → String) (ks : List String) : ℕ → ℕ → Option String
  | 0, _ => none
  | fuel + 1, i => if gen i ∈ ks then pickAccountNumber gen ks fuel (i + 1) else some (gen i)

/-- The mutable state of a `Bank` object relevant to the ledger engine:
the accounts dict, the loans dict, and the contents of the append-only
`transactions.csv`. -/
structure BankState where
  accounts : List (String × Account)
  loans : List (String × List Loan)
  ledger : List Tx
  deriving DecidableEq, Repr

def emptyBank : BankState := ⟨[], [], []⟩

/-- `Bank.deposit_money` (`src/main.py` lines 410-419): delegate to
`Account.deposit`; an exception leaves every table untouched. -/
def BankState.deposit_money (b : BankState) (acct : String) (amount : ℚ) :
    Option BankError × BankState :=
  match lookupAcc b.accounts acct with
  | none => (some (.notFound "Account not found."), b)
  | some a =>
    match a.deposit amount with
    | .error e => (some e, b)
    | .ok (a2, tx) =>
        (none, { b with accounts := setAcc b.accounts acct a2, ledger := b.ledger ++ [tx] })

/-- `Bank.withdraw_money` (`src/main.py` lines 421-430). -/
def BankState.withdraw_money (b : BankState) (acct : String) (amount : ℚ) :
    Option BankError × BankState :=
  match lookupAcc b.accounts acct with
  | none => (some (.notFound "Account not found."), b)
  | some a =>
    match a.withdraw amount with
    | .error e => (some e, b)
    | .ok (a2, tx) =>
        (none, { b with accounts := setAcc b.accounts acct a2, ledger := b.ledger ++ [tx] })

/-- `Bank.transfer_funds` (`src/main.py` lines 432-446).  When the
recipient number equals the sender's, `self.accounts.get` returns the
very same object, so both mutations hit one balance and both entries
record the final value — the aliased branch reproduces that. -/
def BankState.transfer_funds (b : BankState) (fromN toN : String) (amount : ℚ) :
    Option BankError × BankState :=
  match lookupAcc b.accounts fromN with
  | none => (some (.notFound "Account not found."), b)
  | some a =>
    match lookupAcc b.accounts toN with
    | none => (some (.notFound "Recipient account not found."), b)
    | some t =>
      if fromN = toN then
        if a.is_frozen then (some (.permissionError "One of the accounts is frozen."), b)
        else if amount ≤ 0 then (some (.valueError "Transfer amount must be positive."), b)
        else if amount > a.balance then (some (.valueError "Insufficient balance."), b)
        else
          let bal2 := a.balance - amount + amount
          let txOut : Tx := ⟨a.number, .TRANSFER_OUT, amount, bal2⟩
          let txIn : Tx := ⟨a.number, .TRANSFER_IN, amount, bal2⟩
          let a2 : Account :=
            { a with balance := bal2, transactions := a.transactions ++ [txOut, txIn] }
          (none, { b with accounts := setAcc b.accounts fromN a2,
                          ledger := b.ledger ++ [txOut, txIn] })
      else
        match Account.transfer_to a t amount with
        | .error e => (some e, b)
        | .ok (a2, t2, txOut, txIn) =>
            (none, { b with accounts := setAcc (setAcc b.accounts fromN a2) toN t2,
                            ledger := b.ledger ++ [txOut, txIn] })

/-- `Bank.apply_loan` (`src/main.py` lines 533-546).  The source
performs no validation here: no frozen check and no positivity check on
principal, rate or term.  The disbursal credits the account and appends
a `LOAN_DISBURSAL` entry. -/
def BankState.apply_loan (b : BankState) (acct : String) (principal rate : ℚ) (term : ℤ) :
    Option BankError × BankState :=
  match lookupAcc b.accounts acct with
  | none => (some (.notFound "Account not found."), b)
  | some a =>
    let loan := Loan.create a.number principal rate term
    let a2 : Account := { a with balance := a.balance + principal }
    let tx : Tx := ⟨a.number, .LOAN_DISBURSAL, principal, a.balance + principal⟩
    (none, { b with accounts := setAcc b.accounts acct a2,
                    loans := appendLoan b.loans a.number loan,
                    ledger := b.ledger ++ [tx] })

/-- `Bank.make_loan_payment` (`src/main.py` lines 559-578): select the
loan, pay it, append the `LOAN_PAYMENT` entry.  The account tables are
not touched. -/
def BankState.make_loan_payment (b : BankState) (acct : String) (idx : ℕ) (amount : ℚ) :
    Option BankError × BankState :=
  let myLoans := (lookupLoans b.loans acct).getD []
  if myLoans = [] then (some (.notFound "No loans to pay."), b)
  else
    match myLoans.get? idx with
    | none => (some (.notFound "Invalid selection."), b)
    | some loan =>
      match loan.make_payment amount with
      | .error e => (some e, b)
      | .ok (l2, applied) =>
          (none, { b with loans := setLoans b.loans acct (myLoans.set idx l2),
                          ledger := b.ledger ++ [append_loan_payment_tx l2 applied] })

/-- `Bank.register_account` (`src/main.py` lines 356-377): pick a number
not colliding with a live key, add the account with zero balance and
unfrozen, then deposit the initial amount.  A failing deposit raises
out of the method with the account already in the store and nothing
appended to the ledger.  `none` means the number-generation loop is
still running after `fuel` samples. -/
def BankState.register_account (b : BankState) (gen : ℕ → String) (fuel : ℕ)
    (name email phone pwdHash : String) (initial_deposit : ℚ) :
    Option (Option BankError × BankState) :=
  match pickAccountNumber gen (accountKeys b.accounts) fuel 0 with
  | none => none
  | some n =>
    let acc : Account := ⟨n, name, email, phone, pwdHash, 0, false, []⟩
    let b1 : BankState := { b with accounts := b.accounts ++ [(n, acc)] }
    match acc.deposit initial_deposit with
    | .error e => some (some e, b1)
    | .ok (a2, tx) =>
        some (none, { b1 with accounts := setAcc b1.accounts n a2,
                              ledger := b1.ledger ++ [tx] })

/-- `Bank.close_account` (`src/main.py` lines 482-494): remove the
account from the live store; ledger history and loans are retained. -/
def BankState.close_account (b : BankState) (acct : String) :
    Option BankError × BankState :=
  match lookupAcc b.accounts acct with
  | none => (some (.notFound "Account not found."), b)
  | some _ => (none, { b with accounts := removeAcc b.accounts acct })

/-- `Bank.freeze_account_admin` (`src/main.py` lines 605-615). -/
def BankState.freeze_account_admin (b : BankState) (acct : String) :
    Option BankError × BankState :=
  match lookupAcc b.accounts acct with
  | none => (some (.notFound "Account not found."), b)
  | some a => (none, { b with accounts := setAcc b.accounts acct { a with is_frozen := true } })

/-- `Bank.unfreeze_account_admin` (`src/main.py` lines 617-627). -/
def BankState.unfreeze_account_admin (b : BankState) (acct : String) :
    Option BankError × BankState :=
  match lookupAcc b.accounts acct with
  | none => (some (.notFound "Account not found."), b)
  | some a => (none, { b with accounts := setAcc b.accounts acct { a with is_frozen := false } })

/-- `Bank.check_balance` (`src/main.py` lines 404-408): a pure query,
performed without any frozen check. -/
def BankState.check_balance (b : BankState) (acct : String) : Option ℚ :=
  (lookupAcc b.accounts acct).map Account.balance

/-- The balance- and ledger-affecting operations `Bank.run` dispatches. -/
inductive BankOp
  | deposit (acct : String) (amount : ℚ)
  | withdraw (acct : String) (amount : ℚ)
  | transfer (fromN toN : String) (amount : ℚ)
  | applyLoan (acct : String) (principal rate : ℚ) (term : ℤ)
  | payLoan (acct : String) (idx : ℕ) (amount : ℚ)
  | freeze (acct : String)
  | unfreeze (acct : String)
  | register (gen : ℕ → String) (fuel : ℕ) (name email phone pwdHash : String) (dep : ℚ)
  | closeAcct (acct : String)

/-- One menu-dispatched operation.  A registration whose
number-generation loop is still running yields no observable new state. -/
def applyOp (op : BankOp) (b : BankState) : Option BankError × BankState :=
  match op with
  | .deposit acct amount => b.deposit_money acct amount
  | .withdraw acct amount => b.withdraw_money acct amount
  | .transfer f t amount => b.transfer_funds f t amount
  | .applyLoan acct p r n => b.apply_loan acct p r n
  | .payLoan acct i amount => b.make_loan_payment acct i amount
  | .freeze acct => b.freeze_account_admin acct
  | .unfreeze acct => b.unfreeze_account_admin acct
  | .register gen fuel nm em ph pw dep =>
      match b.register_account gen fuel nm em ph pw dep with
      | none => (none, b)
      | some r => r
  | .closeAcct acct => b.close_account acct

/-! ## Spec-side definitions

The replay property and the amortization formula are stated by the spec
(§3 invariant 5, §4.3, §8); the definitions below follow the spec's
words so they can be compared with the embedded code. -/

/-- The spec's "recorded delta" of a ledger entry: credits count
positively, debits (and payments) negatively. -/
def txDelta (t : Tx) : ℚ :=
  match t.type with
  | .DEPOSIT => t.amount
  | .TRANSFER_IN => t.amount
  | .LOAN_DISBURSAL => t.amount
  | .WITHDRAW => -t.amount
  | .TRANSFER_OUT => -t.amount
  | .LOAN_PAYMENT => -t.amount

/-- The spec's replay (§8 "Ledger replay equivalence"): fold the
account's ordered history from a zero balance using each entry's
recorded delta. -/
def replayBalance (acct : String) (ledger : List Tx) : ℚ :=
  (ledger.map (fun t => if t.account = acct then txDelta t else 0)).sum

/-- Replay restricted to the entry types that record account-balance
events, i.e. every type except `LOAN_PAYMENT` (which the source records
against the loan's own balance, in a distinct namespace per §4.3). -/
def replayBalanceNoLoanPay (acct : String) (ledger : List Tx) : ℚ :=
  (ledger.map (fun t =>
    if t.account = acct ∧ t.type ≠ TxType.LOAN_PAYMENT then txDelta t else 0)).sum

/-- The spec's monthly-payment formula (§4.3): with
`r = annual_rate_pct / 12 / 100`, a zero rate gives
`principal / term_months` and otherwise the amortizing-annuity payment. -/
def specMonthlyPayment (principal rate_pct : ℚ) (term_months : ℤ) : ℚ :=
  if rate_pct = 0 then principal / (term_months : ℚ)
  else
    let r := rate_pct / 12 / 100
    principal * r * (1 + r) ^ term_months / ((1 + r) ^ term_months - 1)

/-- Spec §8 "Non-negativity": every live account has a non-negative
balance. -/
def NonNegInv (b : BankState) : Prop := ∀ p ∈ b.accounts, 0 ≤ p.2.balance

/-- Well-formedness the source maintains for the accounts dict: keys are
unique (Python dict) and each stored account's `number` field is the key
it is stored under. -/
def AccountsWF (m : List (String × Account)) : Prop :=
  (m.map Prod.fst).Nodup ∧ ∀ p ∈ m, p.2.number = p.1

/-- Spec §8 "Ledger replay equivalence", restricted to non-`LOAN_PAYMENT`
entries: replaying each live account's history reproduces its balance. -/
def ReplayInv (b : BankState) : Prop :=
  ∀ p ∈ b.accounts, replayBalanceNoLoanPay p.1 b.ledger = p.2.balance

def BankInv (b : BankState) : Prop := AccountsWF b.accounts ∧ ReplayInv b

/-- Side condition for registrations: the number the generation loop
settles on has no prior ledger history.  (The source does not enforce
this — it only avoids live keys — which is what claim C7's
counterexample exhibits.) -/
def regFreshOK : BankOp → BankState → Prop
  | .register gen fuel _ _ _ _ _, b =>
      match pickAccountNumber gen (accountKeys b.accounts) fuel 0 with
      | some n => ∀ t ∈ b.ledger, t.account ≠ n
      | none => True
  | _, _ => True

/-! ## Concrete states for witnesses and counterexamples -/

/-- A registration whose `generate_account_number` stream is the
constant `n` (it is accepted on the first sample whenever `n` is not a
live key). -/
def regOp (n : String) (dep : ℚ) : BankOp :=
  .register (fun _ => n) 1 "Om" "om@mail.com" "9990001111" "hash" dep

/-- One account `100001`, registered with an initial deposit of 50. -/
def bank1 : BankState := (applyOp (regOp "100001" 50) emptyBank).2

/-- `bank1` after a zero-rate 12-month loan of 100 is disbursed. -/
def c4state2 : BankState := (applyOp (.applyLoan "100001" 100 0 12) bank1).2

/-- `c4state2` after a payment of 40 on that loan. -/
def c4state3 : BankState := (applyOp (.payLoan "100001" 0 40) c4state2).2

/-- `bank1` after `apply_loan` is given the (unvalidated) principal
`-100`. -/
def c2state : BankState := (applyOp (.applyLoan "100001" (-100) 0 12) bank1).2

/-- `bank1` with account `100001` frozen by the admin. -/
def c3frozen : BankState := (applyOp (.freeze "100001") bank1).2

/-- The result of `apply_loan 100` on the frozen account. -/
def c3result : Option BankError × BankState :=
  applyOp (.applyLoan "100001" 100 0 12) c3frozen

/-- A loan created by `apply_loan` with the (unvalidated) principal
`-5`: its remaining balance starts negative. -/
def c5loan : Loan := Loan.create "100001" (-5) 0 12

/-- Account `111111` registered with deposit 50 and then closed: its
ledger history survives while the number leaves the live store. -/
def c7closed : BankState :=
  (applyOp (.closeAcct "111111") (applyOp (regOp "111111" 50) emptyBank).2).2

/-- Re-registration after closure, with the number generator producing
the retired number `111111` again. -/
def c7reg : Option (Option BankError × BankState) :=
  BankState.register_account c7closed (fun _ => "111111") 1 "Mo" "mo@mail.com" "111" "h2" 20

/-- A plain unfrozen account with balance 500, and a second with 0,
for the transfer witnesses. -/
def w1sender : Account := ⟨"100001", "A", "a@mail.com", "1", "h", 500, false, []⟩

def w1receiver : Account := ⟨"100002", "B", "b@mail.com", "2", "h", 0, false, []⟩

def w1bank : BankState := ⟨[("100001", w1sender), ("100002", w1receiver)], [], []⟩

/-- A frozen account with balance 50. -/
def w3acc : Account := ⟨"100003", "C", "c@mail.com", "3", "h", 50, true, []⟩

def w3bank : BankState := ⟨[("100003", w3acc)], [], []⟩

/-- A zero-rate loan of 100 held by `100001`. -/
def w9loan : Loan := Loan.create "100001" 100 0 12

def w9bank : BankState := ⟨[("100001", w1sender)], [("100001", [w9loan])], []⟩

/-! ## Association-list and replay lemmas -/

theorem lookupAcc_mem {m : List (String × Account)} {n : String} {a : Account}
    (h : lookupAcc m n = some a) : (n, a) ∈ m := by
  induction m with
  | nil => simp [lookupAcc] at h
  | cons p ps ih =>
    rw [lookupAcc] at h
    by_cases hp : p.1 = n
    · rw [if_pos hp] at h
      obtain rfl : p.2 = a := Option.some.inj h
      subst hp
      simp
    · rw [if_neg hp] at h
      exact List.mem_cons_of_mem _ (ih h)

theorem lookupAcc_eq_none_of_not_mem {m : List (String × Account)} {n : String}
    (h : n ∉ accountKeys m) : lookupAcc m n = none := by
  induction m with
  | nil => rfl
  | cons p ps ih =>
    rw [accountKeys, List.map_cons, List.mem_cons] at h
    push_neg at h
    rw [lookupAcc, if_neg (fun hp => h.1 hp.symm)]
    exact ih h.2

theorem lookupAcc_append (m1 m2 : List (String × Account)) (n : String) :
    lookupAcc (m1 ++ m2) n =
      match lookupAcc m1 n with
      | some a => some a
      | none => lookupAcc m2 n := by
  induction m1 with
  | nil => rfl
  | cons p ps ih =>
    rw [List.cons_append, lookupAcc, lookupAcc]
    by_cases hp : p.1 = n
    · rw [if_pos hp, if_pos hp]
    · rw [if_neg hp, if_neg hp, ih]

theorem lookupAcc_setAcc_self {m : List (String × Account)} {n : String} {a0 : Account}
    (h : lookupAcc m n = some a0) (a : Account) :
    lookupAcc (setAcc m n a) n = some a := by
  induction m with
  | nil => simp [lookupAcc] at h
  | cons p ps ih =>
    rw [lookupAcc] at h
    rw [setAcc, List.map_cons]
    by_cases hp : p.1 = n
    · rw [if_pos hp, lookupAcc, if_pos rfl]
    · rw [if_neg hp, lookupAcc, if_neg hp]
      rw [if_neg hp] at h
      exact ih h

theorem mem_setAcc {m : List (String × Account)} {n : String} {a : Account}
    {p : String × Account} (h : p ∈ setAcc m n a) :
    p = (n, a) ∨ (p ∈ m ∧ p.1 ≠ n) := by
  rw [setAcc, List.mem_map] at h
  obtain ⟨q, hq, rfl⟩ := h
  by_cases hqn : q.1 = n
  · rw [if_pos hqn]
    exact Or.inl rfl
  · rw [if_neg hqn]
    exact Or.inr ⟨hq, hqn⟩

theorem accountKeys_setAcc (m : List (String × Account)) (n : String) (a : Account) :
    accountKeys (setAcc m n a) = accountKeys m := by
  unfold accountKeys setAcc
  rw [List.map_map]
  apply List.map_congr_left
  intro p _
  by_cases h : p.1 = n
  · simp [h]
  · simp [h]

theorem mem_removeAcc {m : List (String × Account)} {n : String} {p : String × Account}
    (h : p ∈ removeAcc m n) : p ∈ m := by
  induction m with
  | nil => simp [removeAcc] at h
  | cons q ps ih =>
    rw [removeAcc] at h
    by_cases hq : q.1 = n
    · rw [if_pos hq] at h
      exact List.mem_cons_of_mem _ (ih h)
    · rw [if_neg hq] at h
      rcases List.mem_cons.mp h with h1 | h2
      · exact h1 ▸ List.mem_cons_self _ _
      · exact List.mem_cons_of_mem _ (ih h2)

theorem accountKeys_removeAcc_subset {m : List (String × Account)} {n x : String}
    (h : x ∈ accountKeys (removeAcc m n)) : x ∈ accountKeys m := by
  rw [accountKeys, List.mem_map] at h
  obtain ⟨p, hp, rfl⟩ := h
  exact List.mem_map_of_mem _ (mem_removeAcc hp)

theorem nodup_accountKeys_removeAcc {m : List (String × Account)} {n : String}
    (h : (accountKeys m).Nodup) : (accountKeys (removeAcc m n)).Nodup := by
  induction m with
  | nil => simp [removeAcc, accountKeys]
  | cons p ps ih =>
    rw [accountKeys, List.map_cons, List.nodup_cons] at h
    rw [removeAcc]
    by_cases hp : p.1 = n
    · rw [if_pos hp]
      exact ih h.2
    · rw [if_neg hp]
      rw [accountKeys, List.map_cons, List.nodup_cons]
      exact ⟨fun hx => h.1 (accountKeys_removeAcc_subset hx), ih h.2⟩

theorem pickAccountNumber_not_mem {gen : ℕ → String} {ks : List String} :
    ∀ {fuel i : ℕ} {n : String}, pickAccountNumber gen ks fuel i = some n → n ∉ ks := by
  intro fuel
  induction fuel with
  | zero => intro i n h; simp [pickAccountNumber] at h
  | succ f ih =>
    intro i n h
    rw [pickAccountNumber] at h
    by_cases hg : gen i ∈ ks
    · rw [if_pos hg] at h
      exact ih h
    · rw [if_neg hg] at h
      obtain rfl : gen i = n := Option.some.inj h
      exact hg

theorem replayNoLP_append (acct : String) (l1 l2 : List Tx) :
    replayBalanceNoLoanPay acct (l1 ++ l2) =
      replayBalanceNoLoanPay acct l1 + replayBalanceNoLoanPay acct l2 := by
  simp [replayBalanceNoLoanPay]

theorem replayNoLP_single (acct : String) (t : Tx) :
    replayBalanceNoLoanPay acct [t] =
      if t.account = acct ∧ t.type ≠ TxType.LOAN_PAYMENT then txDelta t else 0 := by
  simp [replayBalanceNoLoanPay]

theorem replayNoLP_of_no_entries {acct : String} {l : List Tx}
    (h : ∀ t ∈ l, t.account ≠ acct) : replayBalanceNoLoanPay acct l = 0 := by
  induction l with
  | nil => rfl
  | cons t ts ih =>
    have htail : replayBalanceNoLoanPay acct ts = 0 :=
      ih (fun x hx => h x (List.mem_cons_of_mem _ hx))
    rw [replayBalanceNoLoanPay, List.map_cons, List.sum_cons] at *
    rw [if_neg (fun hc => h t (List.mem_cons_self _ _) hc.1), zero_add]
    exact htail

theorem replayNoLP_cons (acct : String) (t : Tx) (ts : List Tx) :
    replayBalanceNoLoanPay acct (t :: ts) =
      (if t.account = acct ∧ t.type ≠ TxType.LOAN_PAYMENT then txDelta t else 0)
        + replayBalanceNoLoanPay acct ts := by
  simp [replayBalanceNoLoanPay]

theorem replayNoLP_of_all_lp {acct : String} {l : List Tx}
    (h : ∀ t ∈ l, t.type = TxType.LOAN_PAYMENT) : replayBalanceNoLoanPay acct l = 0 := by
  induction l with
  | nil => rfl
  | cons t ts ih =>
    rw [replayNoLP_cons, if_neg (fun hc => hc.2 (h t (List.mem_cons_self _ _))), zero_add]
    exact ih (fun x hx => h x (List.mem_cons_of_mem _ hx))

/-! ## Preservation lemmas for the ledger-replay invariant -/


/-- Updating the one account found at `acct` while appending entries
that all concern `acct` preserves the invariant, provided the new
balance absorbs exactly the appended deltas. -/
theorem bankInv_update_one {b : BankState} (ls : List (String × List Loan))
    {acct : String} {a a2 : Account} {ts : List Tx}
    (hInv : BankInv b)
    (hlook : lookupAcc b.accounts acct = some a)
    (hnum : a2.number = acct)
    (hts : ∀ t ∈ ts, t.account = acct)
    (hbal : a2.balance = a.balance + replayBalanceNoLoanPay acct ts) :
    BankInv ⟨setAcc b.accounts acct a2, ls, b.ledger ++ ts⟩ := by
  obtain ⟨⟨hnd, hnumWF⟩, hrep⟩ := hInv
  have h1 : (accountKeys (setAcc b.accounts acct a2)).Nodup := by
    rw [accountKeys_setAcc]
    exact hnd
  have h2 : ∀ p ∈ setAcc b.accounts acct a2, p.2.number = p.1 := by
    intro p hp
    rcases mem_setAcc hp with rfl | ⟨hpm, _⟩
    · exact hnum
    · exact hnumWF p hpm
  have h3 : ∀ p ∈ setAcc b.accounts acct a2,
      replayBalanceNoLoanPay p.1 (b.ledger ++ ts) = p.2.balance := by
    intro p hp
    rcases mem_setAcc hp with rfl | ⟨hpm, hpne⟩
    · show replayBalanceNoLoanPay acct (b.ledger ++ ts) = a2.balance
      have h0 : replayBalanceNoLoanPay acct b.ledger = a.balance :=
        hrep (acct, a) (lookupAcc_mem hlook)
      rw [replayNoLP_append, h0, hbal]
    · have hno : ∀ x ∈ ts, x.account ≠ p.1 :=
        fun x hx hc => hpne (hc.symm.trans (hts x hx))
      rw [replayNoLP_append, replayNoLP_of_no_entries hno, add_zero]
      exact hrep p hpm
  exact ⟨⟨h1, h2⟩, h3⟩

/-- Updating two distinct accounts and appending the matching pair of
transfer entries preserves the invariant. -/
theorem bankInv_update_two {b : BankState} (ls : List (String × List Loan))
    {nf nt : String} {a t a2 t2 : Account} {txOut txIn : Tx}
    (hInv : BankInv b)
    (hlf : lookupAcc b.accounts nf = some a)
    (hlt : lookupAcc b.accounts nt = some t)
    (hnumA : a2.number = nf) (hnumT : t2.number = nt)
    (houtAcc : txOut.account = nf) (hinAcc : txIn.account = nt)
    (hbalA : a2.balance = a.balance + replayBalanceNoLoanPay nf [txOut, txIn])
    (hbalT : t2.balance = t.balance + replayBalanceNoLoanPay nt [txOut, txIn]) :
    BankInv ⟨setAcc (setAcc b.accounts nf a2) nt t2, ls, b.ledger ++ [txOut, txIn]⟩ := by
  obtain ⟨⟨hnd, hnumWF⟩, hrep⟩ := hInv
  have h1 : (accountKeys (setAcc (setAcc b.accounts nf a2) nt t2)).Nodup := by
    rw [accountKeys_setAcc, accountKeys_setAcc]
    exact hnd
  have h2 : ∀ p ∈ setAcc (setAcc b.accounts nf a2) nt t2, p.2.number = p.1 := by
    intro p hp
    rcases mem_setAcc hp with rfl | ⟨hp1, hp1ne⟩
    · exact hnumT
    rcases mem_setAcc hp1 with rfl | ⟨hp2, _⟩
    · exact hnumA
    · exact hnumWF p hp2
  have h3 : ∀ p ∈ setAcc (setAcc b.accounts nf a2) nt t2,
      replayBalanceNoLoanPay p.1 (b.ledger ++ [txOut, txIn]) = p.2.balance := by
    intro p hp
    rcases mem_setAcc hp with rfl | ⟨hp1, hp1ne⟩
    · show replayBalanceNoLoanPay nt (b.ledger ++ [txOut, txIn]) = t2.balance
      have h0 : replayBalanceNoLoanPay nt b.ledger = t.balance :=
        hrep (nt, t) (lookupAcc_mem hlt)
      rw [replayNoLP_append, h0, hbalT]
    rcases mem_setAcc hp1 with rfl | ⟨hp2, hp2ne⟩
    · show replayBalanceNoLoanPay nf (b.ledger ++ [txOut, txIn]) = a2.balance
      have h0 : replayBalanceNoLoanPay nf b.ledger = a.balance :=
        hrep (nf, a) (lookupAcc_mem hlf)
      rw [replayNoLP_append, h0, hbalA]
    · have hno : ∀ x ∈ [txOut, txIn], x.account ≠ p.1 := by
        intro x hx
        rcases List.mem_cons.mp hx with rfl | hx2
        · exact fun hc => hp2ne (hc.symm.trans houtAcc)
        · rw [List.mem_singleton] at hx2
          subst hx2
          exact fun hc => hp1ne (hc.symm.trans hinAcc)
      rw [replayNoLP_append, replayNoLP_of_no_entries hno, add_zero]
      exact hrep p hp2
  exact ⟨⟨h1, h2⟩, h3⟩

/-- Appending a fresh zero-balance account (registration before the
initial deposit) preserves the invariant when the number has no prior
ledger history. -/
theorem bankInv_append_account {b : BankState} (ls : List (String × List Loan))
    {n : String} {acc : Account}
    (hInv : BankInv b)
    (hfresh : n ∉ accountKeys b.accounts)
    (hnum : acc.number = n) (hbal : acc.balance = 0)
    (hledger : ∀ t ∈ b.ledger, t.account ≠ n) :
    BankInv ⟨b.accounts ++ [(n, acc)], ls, b.ledger⟩ := by
  obtain ⟨⟨hnd, hnumWF⟩, hrep⟩ := hInv
  have h1 : (accountKeys (b.accounts ++ [(n, acc)])).Nodup := by
    show ((b.accounts ++ [(n, acc)]).map Prod.fst).Nodup
    rw [List.map_append]
    refine List.Nodup.append hnd (List.nodup_singleton _) ?_
    intro x hx hx2
    rw [List.map_singleton, List.mem_singleton] at hx2
    subst hx2
    exact hfresh hx
  have h2 : ∀ p ∈ b.accounts ++ [(n, acc)], p.2.number = p.1 := by
    intro p hp
    rcases List.mem_append.mp hp with hpm | hpx
    · exact hnumWF p hpm
    · rw [List.mem_singleton] at hpx
      subst hpx
      exact hnum
  have h3 : ∀ p ∈ b.accounts ++ [(n, acc)],
      replayBalanceNoLoanPay p.1 b.ledger = p.2.balance := by
    intro p hp
    rcases List.mem_append.mp hp with hpm | hpx
    · exact hrep p hpm
    · rw [List.mem_singleton] at hpx
      subst hpx
      show replayBalanceNoLoanPay n b.ledger = acc.balance
      rw [replayNoLP_of_no_entries hledger, hbal]
  exact ⟨⟨h1, h2⟩, h3⟩

/-- A ledger append of `LOAN_PAYMENT` entries only (plus any change to
the loans table) preserves the invariant. -/
theorem bankInv_lp_append {b : BankState} (ls : List (String × List Loan)) (ts : List Tx)
    (hInv : BankInv b) (hts : ∀ t ∈ ts, t.type = TxType.LOAN_PAYMENT) :
    BankInv ⟨b.accounts, ls, b.ledger ++ ts⟩ := by
  obtain ⟨hWF, hrep⟩ := hInv
  have h3 : ∀ p ∈ b.accounts, replayBalanceNoLoanPay p.1 (b.ledger ++ ts) = p.2.balance := by
    intro p hp
    rw [replayNoLP_append, replayNoLP_of_all_lp hts, add_zero]
    exact hrep p hp
  exact ⟨hWF, h3⟩

/-- A change of the loans table alone preserves the invariant. -/
theorem bankInv_loans_only {b : BankState} (ls : List (String × List Loan))
    (hInv : BankInv b) : BankInv ⟨b.accounts, ls, b.ledger⟩ := by
  obtain ⟨hWF, hrep⟩ := hInv
  exact ⟨hWF, fun p hp => hrep p hp⟩


/-- **C4** (amended).  Ledger-replay equivalence as the source actually
maintains it: for every live account, replaying its ledger entries other
than `LOAN_PAYMENT` (which record the loan's own remaining balance and
do not move the account balance, per `Bank.append_loan_payment`) from a
zero balance reproduces the account's current balance, and every
operation preserves this invariant — provided a registration's assigned
number carries no prior ledger history (`regFreshOK`; the source does
not retire closed numbers, which the C7 counterexample exhibits). -/
theorem replay_invariant_preserved (b : BankState) (op : BankOp)
    (hInv : BankInv b) (hreg : regFreshOK op b) :
    BankInv (applyOp op b).2 := by
  cases op with
  | deposit acct amount =>
    show BankInv (b.deposit_money acct amount).2
    rw [BankState.deposit_money]
    split
    next hl => exact hInv
    next a hl =>
      have hnum : a.number = acct := hInv.1.2 (acct, a) (lookupAcc_mem hl)
      rw [Account.deposit]
      by_cases hf : a.is_frozen = true
      · rw [if_pos hf]
        exact hInv
      · rw [if_neg hf]
        by_cases hpos : amount ≤ 0
        · rw [if_pos hpos]
          exact hInv
        · rw [if_neg hpos]
          refine bankInv_update_one b.loans hInv hl ?_ ?_ ?_
          · exact hnum
          · intro x hx
            rw [List.mem_singleton] at hx
            subst hx
            exact hnum
          · rw [replayNoLP_single,
              if_pos ⟨hnum, (by decide : TxType.DEPOSIT ≠ TxType.LOAN_PAYMENT)⟩]
            rfl
  | withdraw acct amount =>
    show BankInv (b.withdraw_money acct amount).2
    rw [BankState.withdraw_money]
    split
    next hl => exact hInv
    next a hl =>
      have hnum : a.number = acct := hInv.1.2 (acct, a) (lookupAcc_mem hl)
      rw [Account.withdraw]
      by_cases hf : a.is_frozen = true
      · rw [if_pos hf]
        exact hInv
      · rw [if_neg hf]
        by_cases hpos : amount ≤ 0
        · rw [if_pos hpos]
          exact hInv
        · rw [if_neg hpos]
          by_cases hins : amount > a.balance
          · rw [if_pos hins]
            exact hInv
          · rw [if_neg hins]
            refine bankInv_update_one b.loans hInv hl ?_ ?_ ?_
            · exact hnum
            · intro x hx
              rw [List.mem_singleton] at hx
              subst hx
              exact hnum
            · rw [replayNoLP_single,
                if_pos ⟨hnum, (by decide : TxType.WITHDRAW ≠ TxType.LOAN_PAYMENT)⟩]
              show a.balance - amount = a.balance + -amount
              ring
  | transfer nf nt amount =>
    show BankInv (b.transfer_funds nf nt amount).2
    rw [BankState.transfer_funds]
    split
    next hlf => exact hInv
    next a hlf =>
      split
      next hlt => exact hInv
      next t hlt =>
        have hnumA : a.number = nf := hInv.1.2 (nf, a) (lookupAcc_mem hlf)
        have hnumT : t.number = nt := hInv.1.2 (nt, t) (lookupAcc_mem hlt)
        by_cases hft : nf = nt
        · rw [if_pos hft]
          by_cases hfz : a.is_frozen = true
          · rw [if_pos hfz]
            exact hInv
          · rw [if_neg hfz]
            by_cases hpos : amount ≤ 0
            · rw [if_pos hpos]
              exact hInv
            · rw [if_neg hpos]
              by_cases hins : amount > a.balance
              · rw [if_pos hins]
                exact hInv
              · rw [if_neg hins]
                refine bankInv_update_one b.loans hInv hlf ?_ ?_ ?_
                · exact hnumA
                · intro x hx
                  rcases List.mem_cons.mp hx with rfl | hx2
                  · exact hnumA
                  · rw [List.mem_singleton] at hx2
                    subst hx2
                    exact hnumA
                · rw [replayNoLP_cons, replayNoLP_single,
                    if_pos ⟨hnumA, (by decide : TxType.TRANSFER_OUT ≠ TxType.LOAN_PAYMENT)⟩,
                    if_pos ⟨hnumA, (by decide : TxType.TRANSFER_IN ≠ TxType.LOAN_PAYMENT)⟩]
                  show a.balance - amount + amount = a.balance + (-amount + amount)
                  ring
        · rw [if_neg hft]
          rw [Account.transfer_to]
          by_cases hfz : (a.is_frozen || t.is_frozen) = true
          · rw [if_pos hfz]
            exact hInv
          · rw [if_neg hfz]
            by_cases hpos : amount ≤ 0
            · rw [if_pos hpos]
              exact hInv
            · rw [if_neg hpos]
              by_cases hins : amount > a.balance
              · rw [if_pos hins]
                exact hInv
              · rw [if_neg hins]
                refine bankInv_update_two b.loans hInv hlf hlt ?_ ?_ ?_ ?_ ?_ ?_
                · exact hnumA
                · exact hnumT
                · exact hnumA
                · exact hnumT
                · rw [replayNoLP_cons, replayNoLP_single,
                    if_pos ⟨hnumA, (by decide : TxType.TRANSFER_OUT ≠ TxType.LOAN_PAYMENT)⟩,
                    if_neg (fun hc => hft (hnumT.symm.trans hc.1).symm)]
                  show a.balance - amount = a.balance + (-amount + 0)
                  ring
                · rw [replayNoLP_cons, replayNoLP_single,
                    if_neg (fun hc => hft (hnumA.symm.trans hc.1)),
                    if_pos ⟨hnumT, (by decide : TxType.TRANSFER_IN ≠ TxType.LOAN_PAYMENT)⟩]
                  show t.balance + amount = t.balance + (0 + amount)
                  ring
  | applyLoan acct principal rate term =>
    show BankInv (b.apply_loan acct principal rate term).2
    rw [BankState.apply_loan]
    split
    next hl => exact hInv
    next a hl =>
      have hnum : a.number = acct := hInv.1.2 (acct, a) (lookupAcc_mem hl)
      refine bankInv_update_one (appendLoan b.loans a.number
        (Loan.create a.number principal rate term)) hInv hl ?_ ?_ ?_
      · exact hnum
      · intro x hx
        rw [List.mem_singleton] at hx
        subst hx
        exact hnum
      · rw [replayNoLP_single,
          if_pos ⟨hnum, (by decide : TxType.LOAN_DISBURSAL ≠ TxType.LOAN_PAYMENT)⟩]
        rfl
  | payLoan acct idx amount =>
    show BankInv (b.make_loan_payment acct idx amount).2
    simp only [BankState.make_loan_payment]
    by_cases hml : (lookupLoans b.loans acct).getD [] = []
    · rw [if_pos hml]
      exact hInv
    · rw [if_neg hml]
      split
      next hg => exact hInv
      next loan hg =>
        rw [Loan.make_payment]
        by_cases hpos : amount ≤ 0
        · rw [if_pos hpos]
          exact hInv
        · rw [if_neg hpos]
          refine bankInv_lp_append _ _ hInv ?_
          intro x hx
          rw [List.mem_singleton] at hx
          subst hx
          rfl
  | freeze acct =>
    show BankInv (b.freeze_account_admin acct).2
    rw [BankState.freeze_account_admin]
    split
    next hl => exact hInv
    next a hl =>
      have hnum : a.number = acct := hInv.1.2 (acct, a) (lookupAcc_mem hl)
      have h := @bankInv_update_one b b.loans acct a { a with is_frozen := true } []
        hInv hl hnum (fun x hx => absurd hx (List.not_mem_nil x)) (add_zero a.balance).symm
      rw [List.append_nil] at h
      exact h
  | unfreeze acct =>
    show BankInv (b.unfreeze_account_admin acct).2
    rw [BankState.unfreeze_account_admin]
    split
    next hl => exact hInv
    next a hl =>
      have hnum : a.number = acct := hInv.1.2 (acct, a) (lookupAcc_mem hl)
      have h := @bankInv_update_one b b.loans acct a { a with is_frozen := false } []
        hInv hl hnum (fun x hx => absurd hx (List.not_mem_nil x)) (add_zero a.balance).symm
      rw [List.append_nil] at h
      exact h
  | register gen fuel nm em ph pw dep =>
    rw [applyOp, BankState.register_account]
    split
    next h => exact hInv
    next r h =>
      cases hp : pickAccountNumber gen (accountKeys b.accounts) fuel 0 with
      | none =>
        rw [hp] at h
        simp at h
      | some n =>
        rw [hp] at h
        dsimp only at h
        simp only [regFreshOK, hp] at hreg
        have hfresh : n ∉ accountKeys b.accounts := pickAccountNumber_not_mem hp
        have hInv1 : BankInv ⟨b.accounts ++ [(n, ⟨n, nm, em, ph, pw, 0, false, []⟩)],
            b.loans, b.ledger⟩ :=
          @bankInv_append_account b b.loans n ⟨n, nm, em, ph, pw, 0, false, []⟩
            hInv hfresh rfl rfl hreg
        rw [Account.deposit] at h
        by_cases hdep : dep ≤ 0
        · rw [if_neg (by simp), if_pos hdep] at h
          simp only [Option.some.injEq] at h
          subst h
          exact hInv1
        · rw [if_neg (by simp), if_neg hdep] at h
          simp only [Option.some.injEq] at h
          subst h
          have hlook1 : lookupAcc (b.accounts ++ [(n, ⟨n, nm, em, ph, pw, 0, false, []⟩)]) n
              = some ⟨n, nm, em, ph, pw, 0, false, []⟩ := by
            simp [lookupAcc_append, lookupAcc_eq_none_of_not_mem hfresh, lookupAcc]
          refine bankInv_update_one b.loans hInv1 hlook1 ?_ ?_ ?_
          · rfl
          · intro x hx
            rw [List.mem_singleton] at hx
            subst hx
            rfl
          · rw [replayNoLP_single,
              if_pos ⟨rfl, (by decide : TxType.DEPOSIT ≠ TxType.LOAN_PAYMENT)⟩]
            rfl
  | closeAcct acct =>
    show BankInv (b.close_account acct).2
    rw [BankState.close_account]
    split
    next hl => exact hInv
    next a hl =>
      obtain ⟨⟨hnd, hnum⟩, hrep⟩ := hInv
      refine ⟨⟨nodup_accountKeys_removeAcc hnd, ?_⟩, ?_⟩
      · intro p hp
        exact hnum p (mem_removeAcc hp)
      · intro p hp
        exact hrep p (mem_removeAcc hp)

/-- **C1** (confirmed).  For a valid transfer of a positive amount `amt`
from account `nf` to a distinct account `nt` — neither frozen, amount
within the sender's balance — `Bank.transfer_funds` debits the sender by
exactly `amt`, credits the recipient by exactly `amt`, preserves the sum
of the two balances, and appends exactly one `TRANSFER_OUT` entry for
the sender and one `TRANSFER_IN` entry for the recipient, all in the one
returned state (and the error cases return the input state unchanged, so
the mutations and appends happen together or not at all). -/
theorem transfer_valid_conservation
    (b : BankState) (nf nt : String) (a t : Account) (amt : ℚ)
    (hlf : lookupAcc b.accounts nf = some a)
    (hlt : lookupAcc b.accounts nt = some t)
    (hne : nf ≠ nt)
    (hfa : a.is_frozen = false) (hft : t.is_frozen = false)
    (hpos : 0 < amt) (hle : amt ≤ a.balance) :
    BankState.transfer_funds b nf nt amt =
      (none,
       { b with
         accounts := setAcc (setAcc b.accounts nf
             { a with balance := a.balance - amt,
                      transactions := a.transactions
                        ++ [⟨a.number, .TRANSFER_OUT, amt, a.balance - amt⟩] }) nt
             { t with balance := t.balance + amt,
                      transactions := t.transactions
                        ++ [⟨t.number, .TRANSFER_IN, amt, t.balance + amt⟩] },
         ledger := b.ledger ++ [⟨a.number, .TRANSFER_OUT, amt, a.balance - amt⟩,
                                ⟨t.number, .TRANSFER_IN, amt, t.balance + amt⟩] }) ∧
    (a.balance - amt) + (t.balance + amt) = a.balance + t.balance := by
  constructor
  · rw [BankState.transfer_funds, hlf]
    dsimp only
    rw [hlt]
    dsimp only
    rw [if_neg hne, Account.transfer_to,
      if_neg (by simp [hfa, hft] : ¬ (a.is_frozen || t.is_frozen) = true),
      if_neg (not_le.mpr hpos), if_neg (not_lt.mpr hle)]
  · ring

/-- **C2** (amended).  A withdrawal or transfer from an unfrozen account
with non-negative balance whose amount exceeds that balance is rejected
with the insufficient-funds error (`ValueError "Insufficient balance."`
in the source, the spec's `InsufficientFundsError`), leaving the whole
state unchanged; and deposit, withdraw and transfer each preserve
non-negativity of every balance.  (The original claim's "for all
accounts at all times balance ≥ 0" fails through `Bank.apply_loan`,
which never validates the principal — see the counterexample.) -/
theorem insufficient_rejection_and_nonneg_preserved :
    (∀ (b : BankState) (acct : String) (a : Account) (amt : ℚ),
        lookupAcc b.accounts acct = some a → a.is_frozen = false → 0 ≤ a.balance →
        a.balance < amt →
        applyOp (.withdraw acct amt) b
          = (some (.valueError "Insufficient balance."), b)) ∧
    (∀ (b : BankState) (nf nt : String) (a t : Account) (amt : ℚ),
        lookupAcc b.accounts nf = some a → lookupAcc b.accounts nt = some t →
        a.is_frozen = false → t.is_frozen = false → 0 ≤ a.balance → a.balance < amt →
        applyOp (.transfer nf nt amt) b
          = (some (.valueError "Insufficient balance."), b)) ∧
    (∀ (b : BankState) (acct : String) (amt : ℚ),
        NonNegInv b → NonNegInv (applyOp (.deposit acct amt) b).2) ∧
    (∀ (b : BankState) (acct : String) (amt : ℚ),
        NonNegInv b → NonNegInv (applyOp (.withdraw acct amt) b).2) ∧
    (∀ (b : BankState) (nf nt : String) (amt : ℚ),
        NonNegInv b → NonNegInv (applyOp (.transfer nf nt amt) b).2) := by
  refine ⟨?_, ?_, ?_, ?_, ?_⟩
  · intro b acct a amt hl hfa hge hlt
    show b.withdraw_money acct amt = _
    rw [BankState.withdraw_money, hl]
    dsimp only
    rw [Account.withdraw, if_neg (by simp [hfa] : ¬ a.is_frozen = true),
      if_neg (not_le.mpr (lt_of_le_of_lt hge hlt)), if_pos hlt]
  · intro b nf nt a t amt hlf hlt2 hfa hft hge hltb
    show b.transfer_funds nf nt amt = _
    rw [BankState.transfer_funds, hlf]
    dsimp only
    rw [hlt2]
    dsimp only
    by_cases hftn : nf = nt
    · rw [if_pos hftn, if_neg (by simp [hfa] : ¬ a.is_frozen = true),
        if_neg (not_le.mpr (lt_of_le_of_lt hge hltb)), if_pos hltb]
    · rw [if_neg hftn, Account.transfer_to,
        if_neg (by simp [hfa, hft] : ¬ (a.is_frozen || t.is_frozen) = true),
        if_neg (not_le.mpr (lt_of_le_of_lt hge hltb)), if_pos hltb]
  · intro b acct amt hnn
    show NonNegInv (b.deposit_money acct amt).2
    rw [BankState.deposit_money]
    split
    next hl => exact hnn
    next a hl =>
      rw [Account.deposit]
      by_cases hf : a.is_frozen = true
      · rw [if_pos hf]
        exact hnn
      · rw [if_neg hf]
        by_cases hpos : amt ≤ 0
        · rw [if_pos hpos]
          exact hnn
        · rw [if_neg hpos]
          intro p hp
          rcases mem_setAcc hp with rfl | ⟨hpm, _⟩
          · show 0 ≤ a.balance + amt
            exact add_nonneg (hnn (acct, a) (lookupAcc_mem hl))
              (le_of_lt (not_le.mp hpos))
          · exact hnn p hpm
  · intro b acct amt hnn
    show NonNegInv (b.withdraw_money acct amt).2
    rw [BankState.withdraw_money]
    split
    next hl => exact hnn
    next a hl =>
      rw [Account.withdraw]
      by_cases hf : a.is_frozen = true
      · rw [if_pos hf]
        exact hnn
      · rw [if_neg hf]
        by_cases hpos : amt ≤ 0
        · rw [if_pos hpos]
          exact hnn
        · rw [if_neg hpos]
          by_cases hins : amt > a.balance
          · rw [if_pos hins]
            exact hnn
          · rw [if_neg hins]
            intro p hp
            rcases mem_setAcc hp with rfl | ⟨hpm, _⟩
            · show 0 ≤ a.balance - amt
              exact sub_nonneg.mpr (not_lt.mp hins)
            · exact hnn p hpm
  · intro b nf nt amt hnn
    show NonNegInv (b.transfer_funds nf nt amt).2
    rw [BankState.transfer_funds]
    split
    next hlf => exact hnn
    next a hlf =>
      split
      next hlt => exact hnn
      next t hlt =>
        by_cases hftn : nf = nt
        · rw [if_pos hftn]
          by_cases hfz : a.is_frozen = true
          · rw [if_pos hfz]
            exact hnn
          · rw [if_neg hfz]
            by_cases hpos : amt ≤ 0
            · rw [if_pos hpos]
              exact hnn
            · rw [if_neg hpos]
              by_cases hins : amt > a.balance
              · rw [if_pos hins]
                exact hnn
              · rw [if_neg hins]
                intro p hp
                rcases mem_setAcc hp with rfl | ⟨hpm, _⟩
                · show 0 ≤ a.balance - amt + amt
                  rw [sub_add_cancel]
                  exact hnn (nf, a) (lookupAcc_mem hlf)
                · exact hnn p hpm
        · rw [if_neg hftn, Account.transfer_to]
          by_cases hfz : (a.is_frozen || t.is_frozen) = true
          · rw [if_pos hfz]
            exact hnn
          · rw [if_neg hfz]
            by_cases hpos : amt ≤ 0
            · rw [if_pos hpos]
              exact hnn
            · rw [if_neg hpos]
              by_cases hins : amt > a.balance
              · rw [if_pos hins]
                exact hnn
              · rw [if_neg hins]
                intro p hp
                rcases mem_setAcc hp with rfl | ⟨hp1, hp1ne⟩
                · show 0 ≤ t.balance + amt
                  exact add_nonneg (hnn (nt, t) (lookupAcc_mem hlt))
                    (le_of_lt (not_le.mp hpos))
                rcases mem_setAcc hp1 with rfl | ⟨hp2, _⟩
                · show 0 ≤ a.balance - amt
                  exact sub_nonneg.mpr (not_lt.mp hins)
                · exact hnn p hp2

/-- **C3** (amended).  A deposit, withdrawal, or transfer (as either
party) touching a frozen account is rejected with `PermissionError`,
leaving the balance and ledger (the whole state) unchanged, while a
balance query on the frozen account still succeeds.  (The original
claim's "loan disbursal crediting a frozen account is rejected" fails:
`Bank.apply_loan` has no frozen check — see the counterexample.) -/
theorem frozen_rejection_and_query :
    (∀ (b : BankState) (acct : String) (a : Account) (amt : ℚ),
        lookupAcc b.accounts acct = some a → a.is_frozen = true →
        applyOp (.deposit acct amt) b
          = (some (.permissionError "Account is frozen."), b)) ∧
    (∀ (b : BankState) (acct : String) (a : Account) (amt : ℚ),
        lookupAcc b.accounts acct = some a → a.is_frozen = true →
        applyOp (.withdraw acct amt) b
          = (some (.permissionError "Account is frozen."), b)) ∧
    (∀ (b : BankState) (nf nt : String) (a t : Account) (amt : ℚ),
        lookupAcc b.accounts nf = some a → lookupAcc b.accounts nt = some t →
        (a.is_frozen = true ∨ t.is_frozen = true) →
        applyOp (.transfer nf nt amt) b
          = (some (.permissionError "One of the accounts is frozen."), b)) ∧
    (∀ (b : BankState) (acct : String) (a : Account),
        lookupAcc b.accounts acct = some a →
        BankState.check_balance b acct = some a.balance) := by
  refine ⟨?_, ?_, ?_, ?_⟩
  · intro b acct a amt hl hf
    show b.deposit_money acct amt = _
    rw [BankState.deposit_money, hl]
    dsimp only
    rw [Account.deposit, if_pos hf]
  · intro b acct a amt hl hf
    show b.withdraw_money acct amt = _
    rw [BankState.withdraw_money, hl]
    dsimp only
    rw [Account.withdraw, if_pos hf]
  · intro b nf nt a t amt hlf hlt hor
    show b.transfer_funds nf nt amt = _
    rw [BankState.transfer_funds, hlf]
    dsimp only
    rw [hlt]
    dsimp only
    by_cases hftn : nf = nt
    · subst hftn
      obtain rfl : a = t := Option.some.inj (hlf.symm.trans hlt)
      rw [if_pos rfl, if_pos (hor.elim id id)]
    · rw [if_neg hftn, Account.transfer_to, if_pos (Bool.or_eq_true _ _ |>.mpr hor)]
  · intro b acct a hl
    rw [BankState.check_balance, hl]
    rfl

/-- **C5** (amended).  A payment of positive amount strictly above the
loan's remaining balance is clamped: it leaves the balance exactly 0 and
records the pre-payment balance, not the requested amount; and on a loan
whose remaining balance is non-negative every successful payment is
monotone non-increasing and keeps the balance non-negative.  (Without
the non-negativity premise monotonicity fails, because `Bank.apply_loan`
accepts a negative principal — see the counterexample.) -/
theorem loan_payment_clamp_and_monotone :
    (∀ (l : Loan) (amt : ℚ), 0 < amt → l.balance < amt →
        Loan.make_payment l amt = .ok ({ l with balance := 0 }, l.balance)) ∧
    (∀ (l l2 : Loan) (amt applied : ℚ), 0 ≤ l.balance →
        Loan.make_payment l amt = .ok (l2, applied) →
        l2.balance ≤ l.balance ∧ 0 ≤ l2.balance) := by
  constructor
  · intro l amt hpos hgt
    rw [Loan.make_payment, if_neg (not_le.mpr hpos)]
    dsimp only
    rw [if_pos hgt, sub_self]
  · intro l l2 amt applied hnn heq
    rw [Loan.make_payment] at heq
    by_cases hpos : amt ≤ 0
    · rw [if_pos hpos] at heq
      exact absurd heq (by simp)
    · rw [if_neg hpos] at heq
      dsimp only at heq
      by_cases hgt : amt > l.balance
      · rw [if_pos hgt] at heq
        rw [Except.ok.injEq, Prod.mk.injEq] at heq
        obtain ⟨h1, _⟩ := heq
        subst h1
        show l.balance - l.balance ≤ l.balance ∧ 0 ≤ l.balance - l.balance
        rw [sub_self]
        exact ⟨hnn, le_refl 0⟩
      · rw [if_neg hgt] at heq
        rw [Except.ok.injEq, Prod.mk.injEq] at heq
        obtain ⟨h1, _⟩ := heq
        subst h1
        show l.balance - amt ≤ l.balance ∧ 0 ≤ l.balance - amt
        constructor
        · exact sub_le_self _ (le_of_lt (not_le.mp hpos))
        · exact sub_nonneg.mpr (not_lt.mp hgt)

/-- **C6** (confirmed).  For a loan created with principal `p > 0`,
annual rate `pct ≥ 0` and term `n > 0` months, the derived
`monthly_payment` equals the spec's formula: `p / n` when the rate is
zero, and otherwise `p·r·(1+r)^n / ((1+r)^n − 1)` with
`r = pct / 12 / 100`. -/
theorem monthly_payment_matches_spec (acct : String) (p pct : ℚ) (n : ℤ)
    (hp : 0 < p) (hr : 0 ≤ pct) (hn : 0 < n) :
    (Loan.create acct p pct n).monthly_payment = specMonthlyPayment p pct n := by
  show Loan.calculate_monthly_payment p pct n = specMonthlyPayment p pct n
  rw [Loan.calculate_monthly_payment, specMonthlyPayment]
  have h1200 : pct / 12 / 100 = 0 ↔ pct = 0 := by
    rw [div_div]
    constructor
    · intro h
      rcases div_eq_zero_iff.mp h with h2 | h2
      · exact h2
      · norm_num at h2
    · intro h
      rw [h, zero_div]
  by_cases hz : pct = 0
  · rw [if_pos (h1200.mpr hz), if_pos hz]
  · rw [if_neg (fun hc => hz (h1200.mp hc)), if_neg hz]

/-- **C7** (amended).  The number the registration loop settles on is
never one currently in the live account store, and registration then
stores an account under it; but closure does not retire numbers — the
loop checks only live keys, so a closed account's number that still has
ledger history can be picked again (see the counterexample). -/
theorem register_number_not_in_live_store (b : BankState) (gen : ℕ → String)
    (fuel : ℕ) (nm em ph pw : String) (dep : ℚ) (n : String)
    (hpick : pickAccountNumber gen (accountKeys b.accounts) fuel 0 = some n) :
    n ∉ accountKeys b.accounts ∧
    ∃ r, BankState.register_account b gen fuel nm em ph pw dep = some r ∧
      (lookupAcc r.2.accounts n).isSome = true := by
  have hfresh := pickAccountNumber_not_mem hpick
  refine ⟨hfresh, ?_⟩
  rw [BankState.register_account, hpick]
  dsimp only
  have hlook0 : lookupAcc (b.accounts ++ [(n, ⟨n, nm, em, ph, pw, 0, false, []⟩)]) n
      = some ⟨n, nm, em, ph, pw, 0, false, []⟩ := by
    simp [lookupAcc_append, lookupAcc_eq_none_of_not_mem hfresh, lookupAcc]
  rw [Account.deposit, if_neg (by simp : ¬ false = true)]
  by_cases hdep : dep ≤ 0
  · rw [if_pos hdep]
    refine ⟨_, rfl, ?_⟩
    rw [hlook0]
    rfl
  · rw [if_neg hdep]
    refine ⟨_, rfl, ?_⟩
    rw [lookupAcc_setAcc_self hlook0]
    rfl

/-- **C8** (code bug).  When every value the generator can produce is
already a live key — the exhausted-store case — the resampling loop of
`Bank.register_account` never succeeds, for any number of iterations:
the source has no `ValidationError` exhaustion branch at all and simply
loops forever, contradicting the spec's "must be handled, not
infinite-looped". -/
theorem exhausted_store_pick_never_returns (gen : ℕ → String) (ks : List String)
    (h : ∀ i, gen i ∈ ks) : ∀ (fuel i : ℕ), pickAccountNumber gen ks fuel i = none := by
  intro fuel
  induction fuel with
  | zero => intro i; rfl
  | succ f ih =>
    intro i
    rw [pickAccountNumber, if_pos (h i)]
    exact ih (i + 1)

/-- **C9** (confirmed).  A successful loan payment changes only the
selected loan's remaining balance (all its other fields are unchanged,
other loans are untouched) and appends exactly one `LOAN_PAYMENT` ledger
entry; the accounts table — balances, frozen flags, every field — is
left entirely unchanged: a loan payment never debits the account. -/
theorem loan_payment_frame (b : BankState) (acct : String) (idx : ℕ)
    (ls : List Loan) (l : Loan) (amt : ℚ)
    (hls : lookupLoans b.loans acct = some ls)
    (hl : ls.get? idx = some l)
    (hpos : 0 < amt) :
    ∃ l2 applied,
      applyOp (.payLoan acct idx amt) b =
        (none, { b with loans := setLoans b.loans acct (ls.set idx l2),
                        ledger := b.ledger
                          ++ [⟨l.account, .LOAN_PAYMENT, applied, l2.balance⟩] }) ∧
      l2.account = l.account ∧ l2.principal = l.principal ∧
      l2.interest_rate = l.interest_rate ∧ l2.term_months = l.term_months ∧
      l2.monthly_payment = l.monthly_payment ∧
      l2.balance = l.balance - applied ∧
      (applyOp (.payLoan acct idx amt) b).2.accounts = b.accounts := by
  have hne : ls ≠ [] := by
    rintro rfl
    simp [List.get?] at hl
  have happ : applyOp (.payLoan acct idx amt) b
      = (none,
         { b with
           loans :=
             setLoans b.loans acct (ls.set idx
               { l with balance := l.balance - (if amt > l.balance then l.balance else amt) }),
           ledger :=
             b.ledger ++ [⟨l.account, .LOAN_PAYMENT,
               (if amt > l.balance then l.balance else amt),
               l.balance - (if amt > l.balance then l.balance else amt)⟩] }) := by
    show b.make_loan_payment acct idx amt = _
    rw [BankState.make_loan_payment, hls]
    dsimp only [Option.getD_some]
    rw [if_neg hne, hl]
    dsimp only
    rw [Loan.make_payment, if_neg (not_le.mpr hpos)]
    rfl
  refine ⟨_, _, happ, rfl, rfl, rfl, rfl, rfl, rfl, ?_⟩
  rw [happ]

/-- **C10** (confirmed).  A registration whose initial deposit is
non-positive raises the deposit validation error, yet the new account
has already been added to the in-memory store with zero balance and
unfrozen, no ledger entry is appended, and the error does not remove the
account. -/
theorem register_bad_deposit_leaves_account (b : BankState) (gen : ℕ → String)
    (fuel : ℕ) (nm em ph pw : String) (dep : ℚ) (n : String)
    (hpick : pickAccountNumber gen (accountKeys b.accounts) fuel 0 = some n)
    (hdep : dep ≤ 0) :
    BankState.register_account b gen fuel nm em ph pw dep =
      some (some (.valueError "Deposit amount must be positive."),
        { b with accounts := b.accounts ++ [(n, ⟨n, nm, em, ph, pw, 0, false, []⟩)] }) := by
  rw [BankState.register_account, hpick]
  dsimp only
  rw [Account.deposit, if_neg (by simp : ¬ false = true), if_pos hdep]

/-- Witness for C1 at a concrete two-account bank. -/
theorem transfer_valid_conservation_witness :
    BankState.transfer_funds w1bank "100001" "100002" 200 =
      (none,
       { w1bank with
         accounts :=
           setAcc
             (setAcc w1bank.accounts "100001"
               { w1sender with
                 balance := w1sender.balance - 200,
                 transactions :=
                   w1sender.transactions
                     ++ [⟨w1sender.number, .TRANSFER_OUT, 200, w1sender.balance - 200⟩] })
             "100002"
             { w1receiver with
               balance := w1receiver.balance + 200,
               transactions :=
                 w1receiver.transactions
                   ++ [⟨w1receiver.number, .TRANSFER_IN, 200, w1receiver.balance + 200⟩] },
         ledger :=
           w1bank.ledger
             ++ [⟨w1sender.number, .TRANSFER_OUT, 200, w1sender.balance - 200⟩,
                 ⟨w1receiver.number, .TRANSFER_IN, 200, w1receiver.balance + 200⟩] }) ∧
    (w1sender.balance - 200) + (w1receiver.balance + 200)
      = w1sender.balance + w1receiver.balance :=
  transfer_valid_conservation w1bank "100001" "100002" w1sender w1receiver 200
    rfl rfl (by decide) rfl rfl (by norm_num) (by norm_num [w1sender])

/-- Witness for C2: overdraft withdrawal of 600 against balance 500. -/
theorem insufficient_rejection_witness :
    applyOp (.withdraw "100001" 600) w1bank
      = (some (.valueError "Insufficient balance."), w1bank) :=
  insufficient_rejection_and_nonneg_preserved.1 w1bank "100001" w1sender 600
    rfl rfl (by norm_num [w1sender]) (by norm_num [w1sender])

/-- Witness for C3: deposit on a frozen account. -/
theorem frozen_rejection_witness :
    applyOp (.deposit "100003" 10) w3bank
      = (some (.permissionError "Account is frozen."), w3bank) :=
  frozen_rejection_and_query.1 w3bank "100003" w3acc 10 rfl rfl

/-- Witness for C4: the invariant survives a deposit on `bank1`. -/
theorem replay_invariant_preserved_witness :
    BankInv (applyOp (.deposit "100001" 5) bank1).2 :=
  replay_invariant_preserved bank1 (.deposit "100001" 5)
    (by
      norm_num [BankInv, AccountsWF, ReplayInv, bank1, regOp, applyOp, emptyBank,
        BankState.register_account, pickAccountNumber, accountKeys, Account.deposit,
        setAcc, lookupAcc, replayBalanceNoLoanPay, txDelta]
      decide)
    trivial

/-- Witness for C5: a payment of 150 against a remaining balance of 100
is clamped to 100 and zeroes the loan. -/
theorem loan_payment_clamp_witness :
    Loan.make_payment w9loan 150 = .ok ({ w9loan with balance := 0 }, w9loan.balance) :=
  loan_payment_clamp_and_monotone.1 w9loan 150 (by norm_num)
    (by norm_num [w9loan, Loan.create])

/-- Witness for C6 at the spec's own example (12000, 0%, 12 months). -/
theorem monthly_payment_matches_spec_witness :
    (Loan.create "100001" 12000 0 12).monthly_payment = specMonthlyPayment 12000 0 12 :=
  monthly_payment_matches_spec "100001" 12000 0 12 (by norm_num) le_rfl (by norm_num)

/-- Witness for C7: a fresh number is accepted and stored. -/
theorem register_number_not_in_live_store_witness :
    "300000" ∉ accountKeys w1bank.accounts ∧
    ∃ r, BankState.register_account w1bank (fun _ => "300000") 1 "Z" "z" "0" "hz" 20
        = some r ∧ (lookupAcc r.2.accounts "300000").isSome = true :=
  register_number_not_in_live_store w1bank (fun _ => "300000") 1 "Z" "z" "0" "hz" 20
    "300000" rfl

/-- Witness for C8: a store holding the only generatable number keeps
the loop running for any observed number of iterations. -/
theorem exhausted_store_pick_witness :
    pickAccountNumber (fun _ => "100000") ["100000"] 5 0 = none :=
  exhausted_store_pick_never_returns (fun _ => "100000") ["100000"]
    (fun _ => List.mem_singleton.mpr rfl) 5 0

/-- Witness for C9: paying 30 on a loan leaves the accounts table of a
concrete bank untouched. -/
theorem loan_payment_frame_witness :
    (applyOp (.payLoan "100001" 0 30) w9bank).2.accounts = w9bank.accounts := by
  obtain ⟨l2, applied, h⟩ :=
    loan_payment_frame w9bank "100001" 0 [w9loan] w9loan 30 rfl rfl (by norm_num)
  exact h.2.2.2.2.2.2.2

/-- Witness for C10: registering with initial deposit −5. -/
theorem register_bad_deposit_witness :
    BankState.register_account w1bank (fun _ => "300000") 1 "Z" "z" "0" "hz" (-5) =
      some (some (.valueError "Deposit amount must be positive."),
        { w1bank with accounts := w1bank.accounts
            ++ [("300000", ⟨"300000", "Z", "z", "0", "hz", 0, false, []⟩)] }) :=
  register_bad_deposit_leaves_account w1bank (fun _ => "300000") 1 "Z" "z" "0" "hz" (-5)
    "300000" rfl (by norm_num)

/-- Counterexample for C2 as stated: `apply_loan` accepts the principal
−100 with no validation, driving a registered account's balance to −50,
so "for all accounts at all times balance ≥ 0" is false. -/
theorem nonneg_invariant_cex_negative_loan :
    c2state.check_balance "100001" = some (-50) ∧ ¬ NonNegInv c2state := by
  norm_num [c2state, bank1, regOp, applyOp, emptyBank, BankState.register_account,
    pickAccountNumber, accountKeys, Account.deposit, setAcc, lookupAcc,
    BankState.check_balance, BankState.apply_loan, Loan.create,
    Loan.calculate_monthly_payment, appendLoan, lookupLoans, NonNegInv]

/-- Counterexample for C3 as stated: on a frozen account, `apply_loan`
succeeds (no error), credits the disbursal, and appends a ledger entry —
loan disbursal crediting a frozen account is not rejected. -/
theorem frozen_loan_disbursal_cex :
    (lookupAcc c3frozen.accounts "100001").map Account.is_frozen = some true ∧
    c3result.1 = none ∧
    c3result.2.check_balance "100001" = some 150 ∧
    c3result.2.ledger.length = c3frozen.ledger.length + 1 := by
  norm_num [c3result, c3frozen, bank1, regOp, applyOp, emptyBank,
    BankState.register_account, pickAccountNumber, accountKeys, Account.deposit,
    setAcc, lookupAcc, BankState.check_balance, BankState.apply_loan,
    BankState.freeze_account_admin, Loan.create, Loan.calculate_monthly_payment,
    appendLoan, lookupLoans]

/-- Counterexample for C4 as stated: after deposit 50, loan disbursal
100 and loan payment 40, the account balance is 150 but replaying every
entry's delta — including the `LOAN_PAYMENT`, which never moved the
account balance — yields 110 ≠ 150. -/
theorem replay_invariant_cex_loan_payment :
    c4state3.check_balance "100001" = some 150 ∧
    replayBalance "100001" c4state3.ledger = 110 ∧
    replayBalance "100001" c4state3.ledger ≠ 150 := by
  norm_num [c4state3, c4state2, bank1, regOp, applyOp, emptyBank,
    BankState.register_account, pickAccountNumber, accountKeys, Account.deposit,
    setAcc, lookupAcc, BankState.check_balance, BankState.apply_loan,
    BankState.make_loan_payment, Loan.create, Loan.calculate_monthly_payment,
    Loan.make_payment, appendLoan, lookupLoans, setLoans, append_loan_payment_tx,
    replayBalance, txDelta]

/-- Counterexample for C5 as stated: a loan created (unvalidated) with
principal −5 has balance −5, and a payment of the positive amount 3 is
"clamped" to −5, raising the balance to 0 — the loan balance is not
monotonically non-increasing across all payments. -/
theorem loan_monotone_cex_negative_balance :
    c5loan.balance = -5 ∧
    Loan.make_payment c5loan 3 = .ok ({ c5loan with balance := 0 }, -5) ∧
    ¬ ({ c5loan with balance := 0 } : Loan).balance ≤ c5loan.balance := by
  norm_num [c5loan, Loan.create, Loan.calculate_monthly_payment, Loan.make_payment]

/-- Counterexample for C7 as stated: account 111111 is registered and
closed, leaving its ledger history; a later registration is assigned the
same number 111111 even though ledger history referencing it exists. -/
theorem closed_number_reuse_cex :
    lookupAcc c7closed.accounts "111111" = none ∧
    "111111" ∈ c7closed.ledger.map Tx.account ∧
    (c7reg.map (fun r => (r.1, (lookupAcc r.2.accounts "111111").map Account.balance)))
      = some (none, some 20) := by
  norm_num [c7reg, c7closed, bank1, regOp, applyOp, emptyBank,
    BankState.register_account, pickAccountNumber, accountKeys, Account.deposit,
    setAcc, lookupAcc, BankState.close_account, removeAcc]
